import Mathlib

/-!
Shallow embedding of the Writing Improvement App model layer
(`src/main.py`, classes `WritingAppModel` / `WritingAppController`),
together with proofs of the specified properties.

The sqlite table `sentences` is modelled as a list of `Sentence` records
(rows in natural order).  Timestamps are abstract `Nat` values passed in
as a `now` parameter; `CURRENT_TIMESTAMP` is modelled by storing `now`.
Randomness (`ORDER BY RANDOM() LIMIT 1`) is modelled by passing the
random draw `k : Nat` explicitly: the query picks the element of the
unseen list at index `k % length`.
-/

/-- Python `str.strip()`: removes whitespace from both ends of a string. -/
def pyStrip (s : String) : String :=
  ⟨((s.data.dropWhile Char.isWhitespace).reverse.dropWhile Char.isWhitespace).reverse⟩

/-- One row of the `sentences` table (`CREATE TABLE` in `_init_database`). -/
structure Sentence where
  id : Nat
  original : String
  rewrite : Option String
  seen : Bool
  created_at : Nat
  updated_at : Option Nat
deriving DecidableEq

/-- The `sentences` table: rows in natural (rowid) order. -/
abbrev Store := List Sentence

/-- `INTEGER PRIMARY KEY` id assignment: one more than the largest existing id. -/
def nextId (s : Store) : Nat := (s.map Sentence.id).foldr max 0 + 1

/-- `INSERT INTO sentences (original) VALUES (?)`: appends a fresh row with
defaults `rewrite = NULL`, `seen = 0`, `created_at = CURRENT_TIMESTAMP`,
`updated_at = NULL`. -/
def insertRow (s : Store) (orig : String) (now : Nat) : Store :=
  s ++ [{ id := nextId s, original := orig, rewrite := none, seen := false,
          created_at := now, updated_at := none }]

/-- A sqlite connection as seen inside a `with sqlite3.connect(...)` block:
`committed` is the durable state, `pending` the state including the
uncommitted writes of the open transaction. -/
structure Conn where
  committed : Store
  pending : Store
deriving DecidableEq

/-- `conn.commit()`: makes the pending writes durable. -/
def Conn.commit (c : Conn) : Conn := { committed := c.pending, pending := c.pending }

/-- `conn.rollback()` (called by `Connection.__exit__` when the `with` block
exits with an exception): discards the uncommitted writes. -/
def Conn.rollback (c : Conn) : Conn := { committed := c.committed, pending := c.committed }

/-- An import source after parsing (`pd.read_csv`): the header names and the
per-row values of the `sentence` column.  A row `none` models a database
fault (an exception raised by `cursor.execute`) while processing that row;
a row `some v` is a normally parsed cell value `v`. -/
structure CSVSource where
  columns : List String
  rows : List (Option String)
deriving DecidableEq

/-- The `for _, row in df.iterrows()` loop body of `import_csv`, threaded
through the open connection: trims the cell, skips blank values, checks for
a duplicate `original` (`SELECT id FROM sentences WHERE original = ?`, which
sees the pending writes of the open transaction), inserts otherwise, and
counts insertions.  A fault row aborts the loop with the exception. -/
def importBody (now : Nat) : List (Option String) → Conn → Nat → Conn × Except String Nat
  | [], c, n => (c, Except.ok n)
  | none :: _, c, _ => (c, Except.error "database error")
  | some v :: rest, c, n =>
    let sentence := pyStrip v
    if sentence = "" then importBody now rest c n
    else if c.pending.any (fun r => r.original = sentence) then importBody now rest c n
    else importBody now rest { c with pending := insertRow c.pending sentence now } (n + 1)

/-- `WritingAppModel.import_csv`: validates the header, then runs the insert
loop inside `with sqlite3.connect(...)`.  On success `conn.commit()` makes the
inserts durable; on an exception the `with` block rolls the transaction back
and the wrapped error is re-raised.  Returns the durable store and the
result (the count of inserted rows, or the error). -/
def import_csv (s : Store) (src : CSVSource) (now : Nat) : Store × Except String Nat :=
  if "sentence" ∈ src.columns then
    match importBody now src.rows { committed := s, pending := s } 0 with
    | (c, Except.ok n) => ((c.commit).committed, Except.ok n)
    | (c, Except.error e) =>
        ((c.rollback).committed, Except.error ("Failed to import CSV: " ++ e))
  else
    (s, Except.error "Failed to import CSV: CSV must contain a sentence column")

/-- `WritingAppModel.get_random_unseen_sentence`:
`SELECT id, original FROM sentences WHERE seen = 0 ORDER BY RANDOM() LIMIT 1`.
The random draw `k` selects index `k % length` of the unseen rows. -/
def get_random_unseen_sentence (s : Store) (k : Nat) : Option (Nat × String) :=
  let unseen := s.filter (fun r => !r.seen)
  if h : unseen.length = 0 then none
  else
    let r := unseen.get ⟨k % unseen.length, Nat.mod_lt _ (Nat.pos_of_ne_zero h)⟩
    some (r.id, r.original)

/-- `WritingAppModel.mark_sentence_seen`:
`UPDATE sentences SET seen = 1, updated_at = CURRENT_TIMESTAMP WHERE id = ?`. -/
def mark_sentence_seen (s : Store) (id : Nat) (now : Nat) : Store :=
  s.map (fun r => if r.id = id then { r with seen := true, updated_at := some now } else r)

/-- `WritingAppModel.save_rewrite`:
`UPDATE sentences SET rewrite = ?, updated_at = CURRENT_TIMESTAMP WHERE id = ?`. -/
def save_rewrite (s : Store) (id : Nat) (text : String) (now : Nat) : Store :=
  s.map (fun r => if r.id = id then { r with rewrite := some text, updated_at := some now } else r)

/-- `WritingAppModel.get_progress_stats`: `total = COUNT(*)`,
`completed = COUNT(*) WHERE rewrite IS NOT NULL`; `return total, completed`. -/
def get_progress_stats (s : Store) : Nat × Nat :=
  let total := s.length
  let completed := (s.filter (fun r => r.rewrite.isSome)).length
  (total, completed)

/-- `WritingAppModel.reset_session`:
`UPDATE sentences SET seen = 0, rewrite = NULL, updated_at = NULL`. -/
def reset_session (s : Store) : Store :=
  s.map (fun r => { r with seen := false, rewrite := none, updated_at := none })

/-- `WritingAppView.get_rewrite_text`: returns the text widget content
stripped of surrounding whitespace. -/
def get_rewrite_text (raw : String) : String := pyStrip raw

/-- `WritingAppController._handle_save` for the current record `id`:
reads the stripped rewrite text; if it is empty, shows an error and mutates
nothing; otherwise calls `save_rewrite` and then `mark_sentence_seen`.
Returns the resulting store and the outcome. -/
def submit_rewrite (s : Store) (id : Nat) (raw : String) (now : Nat) :
    Store × Except String Unit :=
  let rewrite := get_rewrite_text raw
  if rewrite = "" then (s, Except.error "Please write something before saving.")
  else (mark_sentence_seen (save_rewrite s id rewrite now) id now, Except.ok ())

/-- The number of records whose `rewrite` is present (spec: "completed"). -/
def completedCount (s : Store) : Nat := (s.filter (fun r => r.rewrite.isSome)).length

/-- The number of all records (spec: "total"). -/
def totalCount (s : Store) : Nat := s.length

/-- The user-visible operations driven by the controller, for temporal
properties over whole sessions. -/
inductive Op where
  | importOp (src : CSVSource) (now : Nat)
  | submit (id : Nat) (raw : String) (now : Nat)
  | skip (id : Nat) (now : Nat)
  | reset
deriving DecidableEq

/-- Effect of one user operation on the store (`_handle_import`,
`_handle_save`, `_handle_skip`, `_handle_reset`). -/
def applyOp (s : Store) : Op → Store
  | Op.importOp src now => (import_csv s src now).1
  | Op.submit id raw now => (submit_rewrite s id raw now).1
  | Op.skip id now => mark_sentence_seen s id now
  | Op.reset => reset_session s

/-- Effect of a sequence of user operations. -/
def applyOps (s : Store) (ops : List Op) : Store := ops.foldl applyOp s

/-! ## Helper lemmas -/

theorem le_foldr_max (a : Nat) (l : List Nat) (h : a ∈ l) : a ≤ l.foldr max 0 := by
  induction l with
  | nil => cases h
  | cons x xs ih =>
    rcases List.mem_cons.mp h with h1 | h2
    · simp [h1, le_max_iff]
    · simp only [List.foldr_cons]
      exact le_trans (ih h2) (le_max_right _ _)

theorem id_lt_nextId (s : Store) (r : Sentence) (h : r ∈ s) : r.id < nextId s := by
  have : r.id ≤ (s.map Sentence.id).foldr max 0 :=
    le_foldr_max _ _ (List.mem_map.mpr ⟨r, h, rfl⟩)
  exact Nat.lt_succ_of_le this

theorem mem_insertRow (s : Store) (orig : String) (now : Nat) (r : Sentence)
    (h : r ∈ insertRow s orig now) :
    r ∈ s ∨ r = { id := nextId s, original := orig, rewrite := none, seen := false,
                  created_at := now, updated_at := none } := by
  rcases List.mem_append.mp h with h1 | h2
  · exact Or.inl h1
  · exact Or.inr (List.mem_singleton.mp h2)

theorem get_random_unseen_mem (s : Store) (k : Nat) (p : Nat × String)
    (h : get_random_unseen_sentence s k = some p) :
    ∃ r, r ∈ s ∧ r.seen = false ∧ r.id = p.1 ∧ r.original = p.2 := by
  unfold get_random_unseen_sentence at h
  by_cases h0 : (s.filter (fun r => !r.seen)).length = 0
  · simp [h0] at h
  · simp only [h0, dite_false, dif_neg, Option.some.injEq] at h
    subst h
    set u := s.filter (fun r => !r.seen) with hu
    have hlt : k % u.length < u.length := Nat.mod_lt _ (Nat.pos_of_ne_zero h0)
    have hmem := u.get_mem (k % u.length) hlt
    have hmem2 : u.get ⟨k % u.length, hlt⟩ ∈ s.filter (fun r => !r.seen) := hmem
    refine ⟨u.get ⟨k % u.length, hlt⟩, (List.mem_filter.mp hmem2).1, ?_, rfl, rfl⟩
    have hp := (List.mem_filter.mp hmem2).2
    simpa using hp

theorem importBody_committed (now : Nat) (rows : List (Option String)) (c : Conn) (n : Nat) :
    (importBody now rows c n).1.committed = c.committed := by
  induction rows generalizing c n with
  | nil => rfl
  | cons r rest ih =>
    cases r with
    | none => rfl
    | some v =>
      dsimp only [importBody]
      split
      · exact ih c n
      · split
        · exact ih c n
        · exact ih _ _

theorem filter_isSome_reset (s : Store) :
    (reset_session s).filter (fun r => r.rewrite.isSome) = [] := by
  induction s with
  | nil => rfl
  | cons x xs ih => simpa [reset_session, List.filter] using ih

/-! ## C10 -/

/-- C10: for every store state, the pair returned by `get_progress_stats` satisfies
completed ≤ total (second component ≤ first), and the invariant holds after every
sequence of user operations. -/
theorem progress_completed_le_total (s : Store) (ops : List Op) :
    (get_progress_stats s).2 ≤ (get_progress_stats s).1 ∧
    (get_progress_stats (applyOps s ops)).2 ≤ (get_progress_stats (applyOps s ops)).1 :=
  ⟨List.length_filter_le _ _, List.length_filter_le _ _⟩

/-! ## C1 -/

/-- C1 counterexample: on a store with two records of which one is completed,
`get_progress_stats` returns `(2, 1)` — the pair `(total, completed)` — and not
`(completed, total) = (1, 2)` as the claim states. -/
theorem get_progress_stats_order_counterexample :
    completedCount [⟨1, "a", some "b", true, 0, some 1⟩, ⟨2, "c", none, false, 0, none⟩] = 1 ∧
    totalCount [⟨1, "a", some "b", true, 0, some 1⟩, ⟨2, "c", none, false, 0, none⟩] = 2 ∧
    get_progress_stats [⟨1, "a", some "b", true, 0, some 1⟩, ⟨2, "c", none, false, 0, none⟩]
      = (2, 1) ∧
    get_progress_stats [⟨1, "a", some "b", true, 0, some 1⟩, ⟨2, "c", none, false, 0, none⟩]
      ≠ (completedCount [⟨1, "a", some "b", true, 0, some 1⟩, ⟨2, "c", none, false, 0, none⟩],
         totalCount [⟨1, "a", some "b", true, 0, some 1⟩, ⟨2, "c", none, false, 0, none⟩]) := by
  refine ⟨rfl, rfl, rfl, ?_⟩
  decide

/-- C1 amended: `get_progress_stats` returns the pair `(total, completed)` — the completed
count (records whose rewrite is present) is the second component and the total the first —
and after `reset_session` it returns `(total, 0)` with the total unchanged. -/
theorem get_progress_stats_spec (s : Store) :
    (get_progress_stats s).1 = totalCount s ∧
    (get_progress_stats s).2 = completedCount s ∧
    get_progress_stats (reset_session s) = (totalCount s, 0) := by
  refine ⟨rfl, rfl, ?_⟩
  unfold get_progress_stats reset_session totalCount
  simp [filter_isSome_reset, reset_session]

/-! ## C8 -/

/-- C8: when the header has no column named exactly `sentence`, `import_csv` fails with
the import-format error and leaves the store unchanged (no records inserted). -/
theorem import_csv_missing_column (s : Store) (src : CSVSource) (now : Nat)
    (h : "sentence" ∉ src.columns) :
    import_csv s src now =
      (s, Except.error "Failed to import CSV: CSV must contain a sentence column") := by
  simp [import_csv, h]

/-- Witness for C8 at a concrete input: a header with column `Sentence` (wrong case)
fails and inserts nothing. -/
theorem import_csv_missing_column_witness :
    "sentence" ∉ ["Sentence", "other"] ∧
    import_csv [] ⟨["Sentence", "other"], [some "x"]⟩ 5 =
      ([], Except.error "Failed to import CSV: CSV must contain a sentence column") :=
  ⟨by decide, import_csv_missing_column [] ⟨["Sentence", "other"], [some "x"]⟩ 5 (by decide)⟩

/-! ## C6 -/

/-- C6: `reset_session` keeps every record (same length), sets each record's `seen` to
false, `rewrite` and `updated_at` to absent, leaves `original`/`id`/`created_at` at
position `i` unchanged, makes the completed count 0 with the total unchanged, and makes
`get_random_unseen_sentence` succeed again on a nonempty store. -/
theorem reset_session_spec (s : Store) (i k : Nat) (h : i < s.length)
    (h2 : i < (reset_session s).length) (hne : s.length ≠ 0) :
    (reset_session s).length = s.length ∧
    ((reset_session s).get ⟨i, h2⟩).seen = false ∧
    ((reset_session s).get ⟨i, h2⟩).rewrite = none ∧
    ((reset_session s).get ⟨i, h2⟩).updated_at = none ∧
    ((reset_session s).get ⟨i, h2⟩).original = (s.get ⟨i, h⟩).original ∧
    ((reset_session s).get ⟨i, h2⟩).id = (s.get ⟨i, h⟩).id ∧
    ((reset_session s).get ⟨i, h2⟩).created_at = (s.get ⟨i, h⟩).created_at ∧
    get_progress_stats (reset_session s) = (totalCount s, 0) ∧
    get_random_unseen_sentence (reset_session s) k ≠ none := by
  have hget : (reset_session s).get ⟨i, h2⟩ =
      { s.get ⟨i, h⟩ with seen := false, rewrite := none, updated_at := none } := by
    simp [reset_session, List.get_eq_getElem, List.getElem_map]
  refine ⟨by simp [reset_session], by rw [hget], by rw [hget], by rw [hget], by rw [hget],
    by rw [hget], by rw [hget], ?_, ?_⟩
  · unfold get_progress_stats totalCount
    simp [filter_isSome_reset, reset_session]
  · unfold get_random_unseen_sentence
    have hfil : (reset_session s).filter (fun r => !r.seen) = reset_session s := by
      refine List.filter_eq_self.mpr ?_
      intro a ha
      rcases List.mem_map.mp ha with ⟨b, _, rfl⟩
      rfl
    simp only [hfil]
    cases s with
    | nil => simp at hne
    | cons a as => simp [reset_session]

/-- Witness for C6 at a concrete one-record store that was completed and seen. -/
theorem reset_session_spec_witness :
    (0 < ([⟨1, "a", some "r", true, 0, some 2⟩] : Store).length) ∧
    ((reset_session [⟨1, "a", some "r", true, 0, some 2⟩]).length
        = ([⟨1, "a", some "r", true, 0, some 2⟩] : Store).length ∧
      ((reset_session [⟨1, "a", some "r", true, 0, some 2⟩]).get ⟨0, by decide⟩).seen = false ∧
      ((reset_session [⟨1, "a", some "r", true, 0, some 2⟩]).get ⟨0, by decide⟩).rewrite = none ∧
      ((reset_session [⟨1, "a", some "r", true, 0, some 2⟩]).get ⟨0, by decide⟩).updated_at
        = none ∧
      ((reset_session [⟨1, "a", some "r", true, 0, some 2⟩]).get ⟨0, by decide⟩).original
        = (([⟨1, "a", some "r", true, 0, some 2⟩] : Store).get ⟨0, by decide⟩).original ∧
      ((reset_session [⟨1, "a", some "r", true, 0, some 2⟩]).get ⟨0, by decide⟩).id
        = (([⟨1, "a", some "r", true, 0, some 2⟩] : Store).get ⟨0, by decide⟩).id ∧
      ((reset_session [⟨1, "a", some "r", true, 0, some 2⟩]).get ⟨0, by decide⟩).created_at
        = (([⟨1, "a", some "r", true, 0, some 2⟩] : Store).get ⟨0, by decide⟩).created_at ∧
      get_progress_stats (reset_session [⟨1, "a", some "r", true, 0, some 2⟩])
        = (totalCount [⟨1, "a", some "r", true, 0, some 2⟩], 0) ∧
      get_random_unseen_sentence (reset_session [⟨1, "a", some "r", true, 0, some 2⟩]) 0
        ≠ none) :=
  ⟨by decide,
   reset_session_spec [⟨1, "a", some "r", true, 0, some 2⟩] 0 0 (by decide) (by decide)
     (by decide)⟩

/-! ## C7 -/

/-- The unseen rows, in store order (`WHERE seen = 0`). -/
def unseenList (s : Store) : Store := s.filter (fun r => !r.seen)

/-- C7: `get_random_unseen_sentence` returns none exactly when no unseen record exists;
any returned pair comes from an unseen record; and for a draw `k` below the number of
unseen rows the selection returns exactly the `k`-th unseen row, so the map from draws
(modulo the number of unseen rows) to unseen rows is a bijection — the selection is
uniform over the unseen set when the draw is uniform. -/
theorem get_random_unseen_spec (s : Store) (k : Nat) :
    (get_random_unseen_sentence s k = none ↔ ∀ r, r ∈ s → r.seen = true) ∧
    (∀ p, get_random_unseen_sentence s k = some p →
        ∃ r, r ∈ s ∧ r.seen = false ∧ r.id = p.1 ∧ r.original = p.2) ∧
    (∀ hk : k < (unseenList s).length,
        get_random_unseen_sentence s k =
          some (((unseenList s).get ⟨k, hk⟩).id, ((unseenList s).get ⟨k, hk⟩).original)) := by
  refine ⟨⟨?_, ?_⟩, ?_, ?_⟩
  · intro hnone r hr
    unfold get_random_unseen_sentence at hnone
    by_cases h0 : (s.filter (fun r => !r.seen)).length = 0
    · have hemp : s.filter (fun r => !r.seen) = [] := List.length_eq_zero.mp h0
      have := List.filter_eq_nil.mp hemp r hr
      simpa using this
    · simp [h0] at hnone
  · intro hall
    unfold get_random_unseen_sentence
    have hemp : s.filter (fun r => !r.seen) = [] := by
      refine List.filter_eq_nil.mpr ?_
      intro a ha
      simp [hall a ha]
    simp [hemp]
  · exact fun p hp => get_random_unseen_mem s k p hp
  · intro hk
    have hk2 : k < (s.filter (fun r => !r.seen)).length := hk
    unfold get_random_unseen_sentence unseenList
    rw [dif_neg (by omega : ¬(s.filter (fun r => !r.seen)).length = 0)]
    dsimp only
    congr 1
    congr 1 <;>
    · congr 1
      congr 1
      exact Fin.mk_eq_mk.mpr (Nat.mod_eq_of_lt hk2)

/-- Witness for C7 on a store with one seen and one unseen record at draw 0. -/
theorem get_random_unseen_spec_witness :
    ((get_random_unseen_sentence [⟨1, "a", none, true, 0, none⟩, ⟨2, "b", none, false, 0, none⟩] 0
        = none ↔
      ∀ r, r ∈ ([⟨1, "a", none, true, 0, none⟩, ⟨2, "b", none, false, 0, none⟩] : Store) →
        r.seen = true) ∧
     (∀ p, get_random_unseen_sentence
          [⟨1, "a", none, true, 0, none⟩, ⟨2, "b", none, false, 0, none⟩] 0 = some p →
        ∃ r, r ∈ ([⟨1, "a", none, true, 0, none⟩, ⟨2, "b", none, false, 0, none⟩] : Store) ∧
          r.seen = false ∧ r.id = p.1 ∧ r.original = p.2) ∧
     (∀ hk : 0 < (unseenList
          [⟨1, "a", none, true, 0, none⟩, ⟨2, "b", none, false, 0, none⟩]).length,
        get_random_unseen_sentence
            [⟨1, "a", none, true, 0, none⟩, ⟨2, "b", none, false, 0, none⟩] 0 =
          some (((unseenList
              [⟨1, "a", none, true, 0, none⟩, ⟨2, "b", none, false, 0, none⟩]).get
                ⟨0, hk⟩).id,
            ((unseenList
              [⟨1, "a", none, true, 0, none⟩, ⟨2, "b", none, false, 0, none⟩]).get
                ⟨0, hk⟩).original))) :=
  get_random_unseen_spec [⟨1, "a", none, true, 0, none⟩, ⟨2, "b", none, false, 0, none⟩] 0

/-! ## C4 -/

/-- C4: submitting a rewrite whose text is empty after trimming fails with the
validation error and leaves the store (hence the record's `rewrite` and `seen`)
unchanged; for a non-empty trimmed text the submission applies `save_rewrite`
first and then `mark_sentence_seen`, and in the result the record carries both
the trimmed rewrite and `seen = true`. -/
theorem submit_rewrite_spec (s : Store) (id : Nat) (raw : String) (now : Nat)
    (h : pyStrip raw ≠ "") :
    (∀ blank, pyStrip blank = "" →
      submit_rewrite s id blank now =
        (s, Except.error "Please write something before saving.")) ∧
    (submit_rewrite s id raw now).2 = Except.ok () ∧
    (submit_rewrite s id raw now).1 =
      mark_sentence_seen (save_rewrite s id (pyStrip raw) now) id now ∧
    ∀ r, r ∈ (submit_rewrite s id raw now).1 → r.id = id →
      r.rewrite = some (pyStrip raw) ∧ r.seen = true := by
  refine ⟨?_, ?_, ?_, ?_⟩
  · intro blank hb
    simp [submit_rewrite, get_rewrite_text, hb]
  · simp [submit_rewrite, get_rewrite_text, h]
  · simp [submit_rewrite, get_rewrite_text, h]
  · intro r hr hid
    simp only [submit_rewrite, get_rewrite_text, if_neg h, mark_sentence_seen,
      save_rewrite] at hr
    rcases List.mem_map.mp hr with ⟨a, ha, rfl⟩
    rcases List.mem_map.mp ha with ⟨b, _, rfl⟩
    by_cases hbid : b.id = id
    · simp [hbid] at hid ⊢
    · simp [hbid] at hid ⊢

/-- Witness for C4: on a one-record store, submitting `" my rewrite "` succeeds with the
trimmed text saved and the record marked seen, and blank submissions mutate nothing. -/
theorem submit_rewrite_spec_witness :
    pyStrip " my rewrite " ≠ "" ∧
    ((∀ blank, pyStrip blank = "" →
        submit_rewrite [⟨1, "orig", none, false, 0, none⟩] 1 blank 7 =
          ([⟨1, "orig", none, false, 0, none⟩],
           Except.error "Please write something before saving.")) ∧
     (submit_rewrite [⟨1, "orig", none, false, 0, none⟩] 1 " my rewrite " 7).2
        = Except.ok () ∧
     (submit_rewrite [⟨1, "orig", none, false, 0, none⟩] 1 " my rewrite " 7).1 =
       mark_sentence_seen
         (save_rewrite [⟨1, "orig", none, false, 0, none⟩] 1 (pyStrip " my rewrite ") 7) 1 7 ∧
     ∀ r, r ∈ (submit_rewrite [⟨1, "orig", none, false, 0, none⟩] 1 " my rewrite " 7).1 →
       r.id = 1 → r.rewrite = some (pyStrip " my rewrite ") ∧ r.seen = true) :=
  ⟨by decide, submit_rewrite_spec [⟨1, "orig", none, false, 0, none⟩] 1 " my rewrite " 7
    (by decide)⟩

/-! ## C9 -/

/-- C9: `save_rewrite` and `mark_sentence_seen` are point updates — they keep the number
of records, leave every record whose id differs untouched, and on the record whose id
matches they set only `rewrite` (respectively `seen`) plus `updated_at`, keeping `id`,
`original` and `created_at`. -/
theorem point_update_frame (s : Store) (id : Nat) (text : String) (now i : Nat)
    (h : i < s.length) (hs : i < (save_rewrite s id text now).length)
    (hm : i < (mark_sentence_seen s id now).length) :
    (save_rewrite s id text now).length = s.length ∧
    (mark_sentence_seen s id now).length = s.length ∧
    ((s.get ⟨i, h⟩).id ≠ id →
      (save_rewrite s id text now).get ⟨i, hs⟩ = s.get ⟨i, h⟩ ∧
      (mark_sentence_seen s id now).get ⟨i, hm⟩ = s.get ⟨i, h⟩) ∧
    ((s.get ⟨i, h⟩).id = id →
      (save_rewrite s id text now).get ⟨i, hs⟩ =
        { s.get ⟨i, h⟩ with rewrite := some text, updated_at := some now } ∧
      (mark_sentence_seen s id now).get ⟨i, hm⟩ =
        { s.get ⟨i, h⟩ with seen := true, updated_at := some now }) := by
  have hgs : (save_rewrite s id text now).get ⟨i, hs⟩ =
      (fun r => if r.id = id then { r with rewrite := some text, updated_at := some now }
                else r) (s.get ⟨i, h⟩) := by
    simp [save_rewrite, List.get_eq_getElem, List.getElem_map]
  have hgm : (mark_sentence_seen s id now).get ⟨i, hm⟩ =
      (fun r => if r.id = id then { r with seen := true, updated_at := some now }
                else r) (s.get ⟨i, h⟩) := by
    simp [mark_sentence_seen, List.get_eq_getElem, List.getElem_map]
  refine ⟨by simp [save_rewrite], by simp [mark_sentence_seen], ?_, ?_⟩
  · intro hne
    rw [hgs, hgm]
    simp only [List.get_eq_getElem] at hne
    simp [hne]
  · intro heq
    rw [hgs, hgm]
    simp only [List.get_eq_getElem] at heq
    simp [heq]

/-- Witness for C9 on a two-record store: updating id 1 keeps record at index 1
(id 2) untouched and rewrites only the matching fields at index 0. -/
theorem point_update_frame_witness :
    (0 < ([⟨1, "a", none, false, 0, none⟩, ⟨2, "b", none, false, 0, none⟩] : Store).length) ∧
    ((save_rewrite [⟨1, "a", none, false, 0, none⟩, ⟨2, "b", none, false, 0, none⟩] 1 "t" 9).length
        = ([⟨1, "a", none, false, 0, none⟩, ⟨2, "b", none, false, 0, none⟩] : Store).length ∧
     (mark_sentence_seen [⟨1, "a", none, false, 0, none⟩, ⟨2, "b", none, false, 0, none⟩] 1 9).length
        = ([⟨1, "a", none, false, 0, none⟩, ⟨2, "b", none, false, 0, none⟩] : Store).length ∧
     ((([⟨1, "a", none, false, 0, none⟩, ⟨2, "b", none, false, 0, none⟩] : Store).get
          ⟨0, by decide⟩).id ≠ 1 →
       (save_rewrite [⟨1, "a", none, false, 0, none⟩, ⟨2, "b", none, false, 0, none⟩] 1 "t" 9).get
          ⟨0, by decide⟩
         = ([⟨1, "a", none, false, 0, none⟩, ⟨2, "b", none, false, 0, none⟩] : Store).get
            ⟨0, by decide⟩ ∧
       (mark_sentence_seen [⟨1, "a", none, false, 0, none⟩, ⟨2, "b", none, false, 0, none⟩] 1 9).get
          ⟨0, by decide⟩
         = ([⟨1, "a", none, false, 0, none⟩, ⟨2, "b", none, false, 0, none⟩] : Store).get
            ⟨0, by decide⟩) ∧
     ((([⟨1, "a", none, false, 0, none⟩, ⟨2, "b", none, false, 0, none⟩] : Store).get
          ⟨0, by decide⟩).id = 1 →
       (save_rewrite [⟨1, "a", none, false, 0, none⟩, ⟨2, "b", none, false, 0, none⟩] 1 "t" 9).get
          ⟨0, by decide⟩
         = { ([⟨1, "a", none, false, 0, none⟩, ⟨2, "b", none, false, 0, none⟩] : Store).get
              ⟨0, by decide⟩ with rewrite := some "t", updated_at := some 9 } ∧
       (mark_sentence_seen [⟨1, "a", none, false, 0, none⟩, ⟨2, "b", none, false, 0, none⟩] 1 9).get
          ⟨0, by decide⟩
         = { ([⟨1, "a", none, false, 0, none⟩, ⟨2, "b", none, false, 0, none⟩] : Store).get
              ⟨0, by decide⟩ with seen := true, updated_at := some 9 })) :=
  ⟨by decide,
   point_update_frame [⟨1, "a", none, false, 0, none⟩, ⟨2, "b", none, false, 0, none⟩] 1 "t" 9 0
     (by decide) (by decide) (by decide)⟩

/-! ## C2 -/

/-- C2 counterexample: importing `["The cat sat.", <db fault>, "Dogs run fast."]` into an
empty store inserts row 0 into the open transaction (the pending state contains it), the
fault at row 1 makes the import fail, and after the failed import the committed store is
empty — the row inserted before the error did NOT remain committed. -/
theorem import_partial_success_counterexample :
    (importBody 0 [some "The cat sat."] ⟨[], []⟩ 0).1.pending.map Sentence.original
        = ["The cat sat."] ∧
    (import_csv [] ⟨["sentence"], [some "The cat sat.", none, some "Dogs run fast."]⟩ 0).2
        = Except.error "Failed to import CSV: database error" ∧
    (import_csv [] ⟨["sentence"], [some "The cat sat.", none, some "Dogs run fast."]⟩ 0).1
        = [] :=
  ⟨rfl, rfl, rfl⟩

/-- C2 amended: when any error occurs during `import_csv`, the `with` block rolls the
open transaction back, so the store after a failed import equals the store before it —
the import is all-or-nothing per call, not partial-success. -/
theorem import_csv_error_rollback (s : Store) (src : CSVSource) (now : Nat) (e : String)
    (h : (import_csv s src now).2 = Except.error e) :
    (import_csv s src now).1 = s := by
  unfold import_csv
  by_cases hcol : "sentence" ∈ src.columns
  · rw [if_pos hcol]
    rcases hb : importBody now src.rows ⟨s, s⟩ 0 with ⟨c, r⟩
    cases r with
    | ok n =>
      unfold import_csv at h
      rw [if_pos hcol, hb] at h
      simp at h
    | error e2 =>
      have hc := importBody_committed now src.rows ⟨s, s⟩ 0
      rw [hb] at hc
      simpa [Conn.rollback] using hc
  · rw [if_neg hcol]

/-- Witness for C2's amended theorem: a concrete failed import leaves a one-record
store exactly as it was. -/
theorem import_csv_error_rollback_witness :
    (import_csv [⟨1, "old", none, false, 0, none⟩] ⟨["sentence"], [some "a", none]⟩ 3).2
        = Except.error "Failed to import CSV: database error" ∧
    (import_csv [⟨1, "old", none, false, 0, none⟩] ⟨["sentence"], [some "a", none]⟩ 3).1
        = [⟨1, "old", none, false, 0, none⟩] :=
  ⟨rfl, import_csv_error_rollback [⟨1, "old", none, false, 0, none⟩]
    ⟨["sentence"], [some "a", none]⟩ 3 "Failed to import CSV: database error" rfl⟩

/-! ## C3 -/

/-- Follows the spec's words, for comparison with `import_csv` (refinement):
trim each value, skip rows whose trimmed value is blank, insert a row only when no
existing record has an equal trimmed original, and count the rows actually inserted. -/
def import_spec (now : Nat) : Store → List String → Store × Nat
  | s, [] => (s, 0)
  | s, v :: rest =>
    let t := pyStrip v
    if t = "" then import_spec now s rest
    else if s.any (fun r => r.original = t) then import_spec now s rest
    else
      let p := import_spec now (insertRow s t now) rest
      (p.1, p.2 + 1)

theorem importBody_ok_eq_spec (now : Nat) (rows : List String) (c : Conn) (n : Nat) :
    importBody now (rows.map some) c n =
      ({ committed := c.committed, pending := (import_spec now c.pending rows).1 },
       Except.ok (n + (import_spec now c.pending rows).2)) := by
  induction rows generalizing c n with
  | nil => simp [importBody, import_spec]
  | cons v rest ih =>
    simp only [List.map, importBody, import_spec]
    by_cases h1 : pyStrip v = ""
    · rw [if_pos h1, if_pos h1, ih]
    · rw [if_neg h1, if_neg h1]
      by_cases h2 : c.pending.any (fun r => r.original = pyStrip v)
      · rw [if_pos h2, if_pos h2, ih]
      · rw [if_neg h2, if_neg h2, ih]
        have harith : n + 1 + (import_spec now (insertRow c.pending (pyStrip v) now) rest).2
            = n + ((import_spec now (insertRow c.pending (pyStrip v) now) rest).2 + 1) := by
          omega
        rw [harith]

theorem import_spec_length (now : Nat) (rows : List String) (s : Store) :
    (import_spec now s rows).1.length = s.length + (import_spec now s rows).2 := by
  induction rows generalizing s with
  | nil => simp [import_spec]
  | cons v rest ih =>
    simp only [import_spec]
    by_cases h1 : pyStrip v = ""
    · rw [if_pos h1]
      exact ih s
    · rw [if_neg h1]
      by_cases h2 : s.any (fun r => r.original = pyStrip v)
      · rw [if_pos h2]
        exact ih s
      · rw [if_neg h2]
        have hlen : (insertRow s (pyStrip v) now).length = s.length + 1 := by
          simp [insertRow]
        have := ih (insertRow s (pyStrip v) now)
        rw [hlen] at this
        dsimp only
        omega

/-- C3: on a fault-free source with the `sentence` column, `import_csv` computes exactly
the spec-level import — trim each value, skip blanks, insert only when no existing record
has an equal trimmed original — returning the count of rows actually inserted, which
equals the number of records added to the store. -/
theorem import_csv_refines_spec (s : Store) (src : CSVSource) (rows : List String) (now : Nat)
    (hcol : "sentence" ∈ src.columns) (hrows : src.rows = rows.map some) :
    import_csv s src now
      = ((import_spec now s rows).1, Except.ok (import_spec now s rows).2) ∧
    (import_spec now s rows).1.length = s.length + (import_spec now s rows).2 := by
  constructor
  · unfold import_csv
    rw [if_pos hcol, hrows, importBody_ok_eq_spec]
    simp [Conn.commit]
  · exact import_spec_length now rows s

/-- Witness for C3 at the spec's example: header plus rows
`["The cat sat.", "", "The cat sat.", "Dogs run fast."]` on an empty store imports 2. -/
theorem import_csv_refines_spec_witness :
    ("sentence" ∈ ["sentence"]) ∧
    (import_csv [] ⟨["sentence"],
        [some "The cat sat.", some "", some "The cat sat.", some "Dogs run fast."]⟩ 0
      = ((import_spec 0 [] ["The cat sat.", "", "The cat sat.", "Dogs run fast."]).1,
         Except.ok (import_spec 0 [] ["The cat sat.", "", "The cat sat.", "Dogs run fast."]).2) ∧
     (import_spec 0 [] ["The cat sat.", "", "The cat sat.", "Dogs run fast."]).1.length
       = ([] : Store).length
         + (import_spec 0 [] ["The cat sat.", "", "The cat sat.", "Dogs run fast."]).2) ∧
    (import_spec 0 [] ["The cat sat.", "", "The cat sat.", "Dogs run fast."]).2 = 2 ∧
    (import_csv [] ⟨["sentence"],
        [some "The cat sat.", some "", some "The cat sat.", some "Dogs run fast."]⟩ 0).2
      = Except.ok 2 :=
  ⟨by decide,
   import_csv_refines_spec [] ⟨["sentence"],
     [some "The cat sat.", some "", some "The cat sat.", some "Dogs run fast."]⟩
     ["The cat sat.", "", "The cat sat.", "Dogs run fast."] 0 (by decide) rfl,
   rfl, rfl⟩

/-! ## C5 -/

/-- The invariant behind the no-repeat guarantee: some record carries the id,
and every record carrying it is seen. -/
def idSeen (s : Store) (id : Nat) : Prop :=
  (∃ r, r ∈ s ∧ r.id = id) ∧ ∀ r, r ∈ s → r.id = id → r.seen = true

theorem idSeen_mark (s : Store) (id id2 now : Nat) (h : idSeen s id) :
    idSeen (mark_sentence_seen s id2 now) id := by
  obtain ⟨⟨w, hw, hwid⟩, hall⟩ := h
  unfold mark_sentence_seen
  constructor
  · refine ⟨_, List.mem_map.mpr ⟨w, hw, rfl⟩, ?_⟩
    by_cases hc : w.id = id2
    · rw [if_pos hc]
      exact hwid
    · rw [if_neg hc]
      exact hwid
  · intro r hr hrid
    rcases List.mem_map.mp hr with ⟨a, ha, rfl⟩
    by_cases hc : a.id = id2
    · simp [hc]
    · simp only [if_neg hc] at hrid ⊢
      exact hall a ha hrid

theorem idSeen_save (s : Store) (id id2 now : Nat) (text : String) (h : idSeen s id) :
    idSeen (save_rewrite s id2 text now) id := by
  obtain ⟨⟨w, hw, hwid⟩, hall⟩ := h
  unfold save_rewrite
  constructor
  · refine ⟨_, List.mem_map.mpr ⟨w, hw, rfl⟩, ?_⟩
    by_cases hc : w.id = id2
    · rw [if_pos hc]
      exact hwid
    · rw [if_neg hc]
      exact hwid
  · intro r hr hrid
    rcases List.mem_map.mp hr with ⟨a, ha, rfl⟩
    by_cases hc : a.id = id2
    · simp only [if_pos hc] at hrid ⊢
      exact hall a ha hrid
    · simp only [if_neg hc] at hrid ⊢
      exact hall a ha hrid

theorem idSeen_submit (s : Store) (id id2 now : Nat) (raw : String) (h : idSeen s id) :
    idSeen (submit_rewrite s id2 raw now).1 id := by
  unfold submit_rewrite
  by_cases hb : get_rewrite_text raw = ""
  · simpa [hb] using h
  · simp only [if_neg hb]
    exact idSeen_mark _ id id2 now (idSeen_save s id id2 now _ h)

theorem idSeen_insertRow (s : Store) (id : Nat) (orig : String) (now : Nat)
    (h : idSeen s id) : idSeen (insertRow s orig now) id := by
  obtain ⟨⟨w, hw, hwid⟩, hall⟩ := h
  constructor
  · exact ⟨w, List.mem_append.mpr (Or.inl hw), hwid⟩
  · intro r hr hrid
    rcases mem_insertRow s orig now r hr with h1 | h2
    · exact hall r h1 hrid
    · exfalso
      subst h2
      have hlt := id_lt_nextId s w hw
      rw [hwid] at hlt
      simp only [] at hrid
      omega

theorem idSeen_importBody (now : Nat) (rows : List (Option String)) (c : Conn) (n : Nat)
    (id : Nat) (h : idSeen c.pending id) :
    idSeen (importBody now rows c n).1.pending id := by
  induction rows generalizing c n with
  | nil => exact h
  | cons r rest ih =>
    cases r with
    | none => exact h
    | some v =>
      simp only [importBody]
      split
      · exact ih c n h
      · split
        · exact ih c n h
        · exact ih _ _ (idSeen_insertRow c.pending id _ now h)

theorem idSeen_import (s : Store) (src : CSVSource) (now : Nat) (id : Nat)
    (h : idSeen s id) : idSeen (import_csv s src now).1 id := by
  unfold import_csv
  by_cases hcol : "sentence" ∈ src.columns
  · rw [if_pos hcol]
    rcases hb : importBody now src.rows ⟨s, s⟩ 0 with ⟨c, r⟩
    have hp : idSeen c.pending id := by
      have := idSeen_importBody now src.rows ⟨s, s⟩ 0 id h
      rwa [hb] at this
    have hcm : c.committed = s := by
      have := importBody_committed now src.rows ⟨s, s⟩ 0
      rwa [hb] at this
    cases r with
    | ok n =>
      dsimp only [Conn.commit]
      exact hp
    | error e =>
      dsimp only [Conn.rollback]
      rw [hcm]
      exact h
  · rw [if_neg hcol]
    exact h

theorem idSeen_applyOp (s : Store) (op : Op) (id : Nat) (hop : op ≠ Op.reset)
    (h : idSeen s id) : idSeen (applyOp s op) id := by
  cases op with
  | importOp src now => exact idSeen_import s src now id h
  | submit id2 raw now => exact idSeen_submit s id id2 now raw h
  | skip id2 now => exact idSeen_mark s id id2 now h
  | reset => exact absurd rfl hop

theorem idSeen_applyOps (s : Store) (ops : List Op) (id : Nat) (hops : Op.reset ∉ ops)
    (h : idSeen s id) : idSeen (applyOps s ops) id := by
  induction ops generalizing s with
  | nil => exact h
  | cons op rest ih =>
    have h1 : op ≠ Op.reset := by
      intro he
      exact hops (he ▸ List.mem_cons_self op rest)
    have h2 : Op.reset ∉ rest := fun hm => hops (List.mem_cons_of_mem _ hm)
    exact ih (applyOp s op) h2 (idSeen_applyOp s op id h1 h)

theorem idSeen_mark_establish (s : Store) (id now : Nat)
    (hmem : ∃ r, r ∈ s ∧ r.id = id) : idSeen (mark_sentence_seen s id now) id := by
  obtain ⟨w, hw, hwid⟩ := hmem
  unfold mark_sentence_seen
  constructor
  · refine ⟨_, List.mem_map.mpr ⟨w, hw, rfl⟩, ?_⟩
    by_cases hc : w.id = id <;> simp [hc, hwid]
  · intro r hr hrid
    rcases List.mem_map.mp hr with ⟨a, ha, rfl⟩
    by_cases hc : a.id = id
    · simp [hc]
    · simp only [if_neg hc] at hrid
      exact absurd hrid hc

/-- C5: once a record is marked seen (via submit or skip), no later call to
`get_random_unseen_sentence` returns it, however many further non-reset user operations
(imports, submits, skips) happen in between; and any pair returned comes from a record
with `seen = false`. -/
theorem no_repeat_until_reset (s : Store) (id now k : Nat) (ops : List Op) (p : Nat × String)
    (hreset : Op.reset ∉ ops) (hmem : ∃ r, r ∈ s ∧ r.id = id)
    (h : get_random_unseen_sentence (applyOps (mark_sentence_seen s id now) ops) k = some p) :
    p.1 ≠ id ∧
    ∃ r, r ∈ applyOps (mark_sentence_seen s id now) ops ∧ r.seen = false ∧
      r.id = p.1 ∧ r.original = p.2 := by
  obtain ⟨r, hrmem, hrunseen, hrid, hrorig⟩ := get_random_unseen_mem _ k p h
  have hinv : idSeen (applyOps (mark_sentence_seen s id now) ops) id :=
    idSeen_applyOps _ ops id hreset (idSeen_mark_establish s id now hmem)
  refine ⟨?_, r, hrmem, hrunseen, hrid, hrorig⟩
  intro hpid
  have hseen := hinv.2 r hrmem (by rw [hrid, hpid])
  rw [hrunseen] at hseen
  exact Bool.false_ne_true hseen

/-- Witness for C5: after marking id 1 seen and importing one more sentence, the
selection at draw 0 returns id 2, not the seen id 1. -/
theorem no_repeat_until_reset_witness :
    Op.reset ∉ [Op.importOp ⟨["sentence"], [some "c"]⟩ 1] ∧
    (((2 : Nat), "b").1 ≠ 1 ∧
     ∃ r, r ∈ applyOps
         (mark_sentence_seen
           [⟨1, "a", none, false, 0, none⟩, ⟨2, "b", none, false, 0, none⟩] 1 0)
         [Op.importOp ⟨["sentence"], [some "c"]⟩ 1] ∧ r.seen = false ∧
       r.id = ((2 : Nat), "b").1 ∧ r.original = ((2 : Nat), "b").2) :=
  ⟨by decide,
   no_repeat_until_reset
     [⟨1, "a", none, false, 0, none⟩, ⟨2, "b", none, false, 0, none⟩] 1 0 0
     [Op.importOp ⟨["sentence"], [some "c"]⟩ 1] (2, "b") (by decide)
     ⟨⟨1, "a", none, false, 0, none⟩, by decide, rfl⟩ (by decide)⟩
